import Mathlib

/-!
Verification of the `toolkit` Go module (tools.go) against its
natural-language specification.  The Go code is shallowly embedded:
pure string processing becomes Lean functions on `List Char` / `String`,
machine integers become `Nat` (all sizes involved are non-negative),
fallible operations return `Except` or `Option`, and the external world
(the cryptographic random source, the multipart form data, the file
system, the HTTP transport) is passed in explicitly as oracle values
describing what the corresponding standard-library call returns.
-/

namespace Toolkit

/-- tools.go line 19: the 64-character alphabet used by RandomString
("abcdefghijklmnopqrstuvwxyzABCDEFGHIJKLMNOPQRSTUVWXYZ0123456789_+"). -/
def randomStringSource : String :=
  "abcdefghijklmnopqrstuvwxyzABCDEFGHIJKLMNOPQRSTUVWXYZ0123456789_+"

/-- The alphabet as a list of characters (Go: `r := []rune(randomStringSource)`). -/
def sourceChars : List Char := randomStringSource.toList

/-- What Go's crypto/rand.Prime(rand.Reader, 64) guarantees about its result:
a prime number of exactly 64 bits.  (`len(r)` is 64, so the call in
RandomString is `rand.Prime(rand.Reader, 64)`.) -/
def rand_Prime_spec (p : ℕ) : Prop :=
  Nat.Prime p ∧ 2 ^ 63 ≤ p ∧ p < 2 ^ 64

/-- tools.go lines 35-37: one character of the random string.  Given the
prime `p` drawn from the random source, the code computes
`s[i] = r[p.Uint64() % uint64(len(r))]`, i.e. the alphabet character at
index `p % 64`.  (`p < 2^64`, so `p.Uint64()` is `p` itself.) -/
def charFromPrime (p : ℕ) : Char :=
  sourceChars.getD (p % 64) ' '

/-- tools.go lines 32-41: RandomString.  `σ` is the oracle for the random
source: `σ i` is the prime returned by the i-th call to
`rand.Prime(rand.Reader, 64)`. -/
def RandomString (σ : ℕ → ℕ) (n : ℕ) : List Char :=
  (List.range n).map fun i => charFromPrime (σ i)

/-- The 32 alphabet characters sitting at odd indices of
`randomStringSource`. -/
def oddPositionChars : List Char :=
  (List.range 32).map fun i => sourceChars.getD (2 * i + 1) ' '

/-- tools.go lines 22-27: the configuration struct.  Go's `int` fields hold
byte sizes, which are non-negative in every use in this module, so they are
embedded as `Nat`. -/
structure Tools where
  MaxFileSize : ℕ
  AllowedFileTypes : List String
  MaxJSONSize : ℕ
  AllowUnknownFields : Bool
deriving DecidableEq

/-! ## Slugify (tools.go lines 173-184) -/

/-- Model of Go's strings.ToLower for one character: an ASCII upper-case
letter is mapped to its lower-case form, every other character is kept.
This agrees with Go on all characters that have no Unicode lower-case
mapping outside ASCII (ASCII, digits, punctuation, CJK, ...), which covers
every input discussed by the specification. -/
def goToLower (c : Char) : Char :=
  if 'A' ≤ c ∧ c ≤ 'Z' then Char.ofNat (c.toNat + 32) else c

/-- A character matched by neither part of the regexp class `[^a-z0-9]`,
i.e. a character the slug keeps. -/
def isSafeChar (c : Char) : Bool :=
  ('a' ≤ c && c ≤ 'z') || ('0' ≤ c && c ≤ '9')

/-- tools.go line 179: the action of
`regexp.MustCompile("[^a-z0-9]+").ReplaceAllString(s, "-")`, embedded as
the automaton the regex engine runs: scan left to right; a safe character
is copied; an unsafe character emits one hyphen unless the previous
character already belonged to the same unsafe run (`inRun`). -/
def replaceUnsafeRuns : Bool → List Char → List Char
  | _, [] => []
  | inRun, c :: cs =>
    if isSafeChar c then c :: replaceUnsafeRuns false cs
    else if inRun then replaceUnsafeRuns true cs
    else '-' :: replaceUnsafeRuns true cs

/-- tools.go line 179: `strings.Trim(s, "-")` — remove leading and trailing
hyphens. -/
def trimHyphens (l : List Char) : List Char :=
  ((l.dropWhile fun c => c = '-').reverse.dropWhile fun c => c = '-').reverse

/-- tools.go lines 173-184: Slugify. -/
def Slugify (s : String) : Except String String :=
  if s = "" then Except.error "empty string not permitted"
  else
    let slug := trimHyphens (replaceUnsafeRuns false (s.toList.map goToLower))
    if slug.isEmpty then
      Except.error "after removing unsafe characters, slug is zero length"
    else Except.ok (String.mk slug)

/-- Modelled from the spec's wording of the slug algorithm: "every run of
one-or-more characters outside [a-z0-9] is replaced by a single hyphen".
Each unsafe character emits a hyphen and then the whole remaining run is
skipped at once.  Used to check the source's regex-automaton formulation
against the specification's run-collapsing formulation. -/
def collapseRunsSpec : List Char → List Char
  | [] => []
  | c :: cs =>
    if isSafeChar c then c :: collapseRunsSpec cs
    else '-' :: collapseRunsSpec (cs.dropWhile fun x => !isSafeChar x)
termination_by l => l.length
decreasing_by
  · simp
  · simp only [List.length_cons]
    exact Nat.lt_succ_of_le (List.IsSuffix.length_le (List.dropWhile_suffix _))

/-- Modelled from the spec: Slugify as the specification describes it
(lower-case, collapse unsafe runs to single hyphens, trim hyphens, with the
empty-input and empty-result failure conditions). -/
def slugifySpec (s : String) : Except String String :=
  if s = "" then Except.error "empty string not permitted"
  else
    let slug := trimHyphens (collapseRunsSpec (s.toList.map goToLower))
    if slug.isEmpty then
      Except.error "after removing unsafe characters, slug is zero length"
    else Except.ok (String.mk slug)

/-! ## Multipart upload (tools.go lines 44-157) -/

/-- tools.go lines 44-48: the result record for one stored file. -/
structure UploadedFile where
  NewFileName : String
  OriginalFileName : String
  FileSize : ℕ
deriving DecidableEq

/-- Model of Go's strings.EqualFold restricted to ASCII case folding,
which is exact for MIME type strings. -/
def goEqualFold (a b : String) : Bool :=
  a.toList.map goToLower == b.toList.map goToLower

/-- tools.go lines 105-117: the permission check for a sniffed file type.
`allowed` starts false; a non-empty allow-list sets it when some entry is a
case-insensitive match; an empty allow-list sets it unconditionally. -/
def fileTypeAllowed (allowedTypes : List String) (fileType : String) : Bool :=
  if allowedTypes.length > 0 then
    allowedTypes.any fun x => goEqualFold fileType x
  else true

/-- Model of Go's filepath.Ext: the suffix of the final path element
starting at its last dot, or empty when that element has no dot. -/
def goExtChars (s : List Char) : List Char :=
  let tail := s.reverse.takeWhile fun c => c ≠ '.' && c ≠ '/'
  match s.reverse.drop tail.length with
  | '.' :: _ => '.' :: tail.reverse
  | _ => []

/-- filepath.Ext on strings. -/
def goExt (s : String) : String := String.mk (goExtChars s.toList)

/-- One file part of the parsed multipart form, together with the outcomes
of the external operations the per-file closure performs on it:
`sniffedType` is what `http.DetectContentType` returns on the first 512
bytes, the Booleans record whether `hdr.Open()`, the 512-byte `Read`,
`Seek(0,0)` and `os.Create` succeed, and `copyResult` is `some n` when
`io.Copy` copies `n` bytes and `none` when it fails. -/
structure FilePart where
  filename : String
  sniffedType : String
  openOk : Bool
  readOk : Bool
  seekOk : Bool
  createOk : Bool
  copyResult : Option ℕ
deriving DecidableEq

/-- tools.go lines 91-147: the per-file closure inside UploadFiles,
in the source's order: open, read 512 bytes, sniff + permission check,
seek back, choose the destination name (`newName` stands for the
`t.RandomString(25)` result when renaming), create, copy, append.
I/O failures carry placeholder messages standing for the opaque error
values Go passes through; the disallowed-type message is the literal
string from line 120. -/
def processPart (t : Tools) (renameFile : Bool) (newName : String)
    (acc : List UploadedFile) (hdr : FilePart) :
    Except String (List UploadedFile) :=
  if !hdr.openOk then Except.error "open error"
  else if !hdr.readOk then Except.error "read error"
  else if !(fileTypeAllowed t.AllowedFileTypes hdr.sniffedType) then
    Except.error "the uploaded file type is not permitted"
  else if !hdr.seekOk then Except.error "seek error"
  else
    let newFileName :=
      if renameFile then newName ++ goExt hdr.filename else hdr.filename
    if !hdr.createOk then Except.error "create error"
    else
      match hdr.copyResult with
      | none => Except.error "copy error"
      | some size =>
        Except.ok (acc ++ [⟨newFileName, hdr.filename, size⟩])

/-- tools.go lines 89-156: the loop over the file headers.  On a closure
error the Go code executes `uploadedFiles, err = func(...)`, and the
closure's error paths `return nil, err`: the accumulated slice is
overwritten with nil before the outer `return uploadedFiles, err`, so the
loop result on failure is the empty list together with the error.
`gen i` is the `t.RandomString(25)` output used for the i-th part. -/
def uploadLoop (t : Tools) (renameFile : Bool) (gen : ℕ → String) :
    ℕ → List FilePart → List UploadedFile →
    List UploadedFile × Option String
  | _, [], acc => (acc, none)
  | idx, hdr :: rest, acc =>
    match processPart t renameFile (gen idx) acc hdr with
    | Except.error e => ([], some e)
    | Except.ok acc2 => uploadLoop t renameFile gen (idx + 1) rest acc2

/-- The multipart request as UploadFiles observes it: whether
`CreateDirIfNotExist(uploadDir)` succeeds, whether
`r.ParseMultipartForm(int64(t.MaxFileSize))` succeeds, and the file
headers of `r.MultipartForm.File` in iteration order. -/
structure MultipartRequest where
  dirCreateOk : Bool
  parseOk : Bool
  fileParts : List FilePart
deriving DecidableEq

/-- The full result of an UploadFiles call: the receiver as it is left
after the call (the method has a pointer receiver), the returned slice and
the returned error. -/
structure UploadOutcome where
  tools : Tools
  files : List UploadedFile
  err : Option String
deriving DecidableEq

/-- tools.go lines 66-157: UploadFiles.  The variadic `rename ...bool`
parameter is `Option Bool` with default true.  Line 75 assigns
`t.MaxFileSize = 1024 * 1024 * 1024` through the pointer receiver when the
field is zero; the updated receiver is part of the outcome. -/
def UploadFiles (t : Tools) (r : MultipartRequest) (gen : ℕ → String)
    (rename : Option Bool) : UploadOutcome :=
  let renameFile := rename.getD true
  let t2 := if t.MaxFileSize = 0 then
      { t with MaxFileSize := 1024 * 1024 * 1024 } else t
  if r.dirCreateOk = false then ⟨t2, [], some "unable to create directory"⟩
  else if r.parseOk = false then ⟨t2, [], some "the uploaded file is too big"⟩
  else
    let p := uploadLoop t2 renameFile gen 0 r.fileParts []
    ⟨t2, p.1, p.2⟩

/-- The three ways a Go call to UploadOneFile can end: a returned file, a
returned error, or a run-time panic (index out of range). -/
inductive OneFileResult where
  | ok (f : UploadedFile)
  | err (e : String)
  | crash
deriving DecidableEq

/-- tools.go lines 51-63: UploadOneFile.  It delegates to UploadFiles; on
error it returns just the error; otherwise it evaluates `files[0]`, which
panics when the returned slice is empty. -/
def UploadOneFile (t : Tools) (r : MultipartRequest) (gen : ℕ → String)
    (rename : Option Bool) : Tools × OneFileResult :=
  let out := UploadFiles t r gen (some (rename.getD true))
  match out.err with
  | some e => (out.tools, OneFileResult.err e)
  | none =>
    match out.files with
    | [] => (out.tools, OneFileResult.crash)
    | f :: _ => (out.tools, OneFileResult.ok f)

/-! ## ReadJSON (tools.go lines 199-255)

The body is a `List Char`.  `http.MaxBytesReader(w, r.Body, maxBytes)`
delivers at most `maxBytes` bytes and replaces the end of a longer stream
with the error "http: request body too large"; `encoding/json`'s decoder
is embedded as a recursive-descent parser of the JSON grammar.  The decode
target is `interface{}`-like: any well-formed JSON value decodes, numbers
keep their literal text and strings keep their raw (validated) contents,
so the target-dependent error classes of ReadJSON (wrong field type,
unknown field) do not arise — none of the verified claims concerns them. -/

/-- The JSON whitespace characters of RFC 8259, as in Go's scanner. -/
def isJsonWs (c : Char) : Bool :=
  c = ' ' || c = '\t' || c = '\n' || c = '\r'

/-- Skip insignificant whitespace. -/
def skipWs (l : List Char) : List Char := l.dropWhile isJsonWs

/-- A decoded JSON value. -/
inductive Json where
  | null
  | bool (b : Bool)
  | num (lit : List Char)
  | str (raw : List Char)
  | arr (elems : List Json)
  | obj (fields : List (List Char × Json))

/-- Result of a sub-parser that produces a list of characters:
the consumed text and the remainder, or the two parse-failure modes
(input ended inside the construct / invalid character, with the
remainder at the offending position). -/
inductive SResult where
  | ok (content : List Char) (rest : List Char)
  | incomplete
  | bad (rest : List Char)

/-- Match the literal characters of null/true/false: the remainder on
success, `Except.error true` when the input ran out, `Except.error false`
on a mismatch. -/
def dropLit : List Char → List Char → Except Bool (List Char)
  | [], l => Except.ok l
  | _ :: _, [] => Except.error true
  | c :: cs, x :: xs =>
    if x = c then dropLit cs xs else Except.error false

/-- Hexadecimal digit, for \uXXXX escapes. -/
def isHexDigitChar (c : Char) : Bool :=
  c.isDigit || ('a' ≤ c && c ≤ 'f') || ('A' ≤ c && c ≤ 'F')

/-- The body of a JSON string after the opening quote: ordinary characters
(code points at least 0x20), the single-character escapes, and \uXXXX.
Escape sequences are validated and kept verbatim in the content. -/
def parseStringBody : List Char → List Char → SResult
  | _, [] => SResult.incomplete
  | acc, c :: cs =>
    if c = '"' then SResult.ok acc.reverse cs
    else if c = '\\' then
      match cs with
      | [] => SResult.incomplete
      | e :: es =>
        if e = '"' || e = '\\' || e = '/' || e = 'b' || e = 'f' ||
            e = 'n' || e = 'r' || e = 't' then
          parseStringBody (e :: c :: acc) es
        else if e = 'u' then
          match es with
          | h1 :: h2 :: h3 :: h4 :: es2 =>
            if isHexDigitChar h1 && isHexDigitChar h2 &&
                isHexDigitChar h3 && isHexDigitChar h4 then
              parseStringBody (h4 :: h3 :: h2 :: h1 :: e :: c :: acc) es2
            else SResult.bad es
          | _ => SResult.incomplete
        else SResult.bad (e :: es)
    else if c.toNat < 32 then SResult.bad (c :: cs)
    else parseStringBody (c :: acc) cs

/-- The digit run of an exponent part (after e/E and an optional sign). -/
def expDigits (lit : List Char) (l : List Char) : SResult :=
  match l with
  | [] => SResult.incomplete
  | d :: _ =>
    if d.isDigit then
      SResult.ok (lit ++ l.takeWhile Char.isDigit) (l.dropWhile Char.isDigit)
    else SResult.bad l

/-- Optional exponent part of a JSON number. -/
def parseExpPart (lit : List Char) (l : List Char) : SResult :=
  match l with
  | [] => SResult.ok lit []
  | c :: r =>
    if c = 'e' || c = 'E' then
      match r with
      | '+' :: r2 => expDigits (lit ++ [c, '+']) r2
      | '-' :: r2 => expDigits (lit ++ [c, '-']) r2
      | r2 => expDigits (lit ++ [c]) r2
    else SResult.ok lit l

/-- Optional fraction part of a JSON number, then the exponent part. -/
def parseFracPart (lit : List Char) (l : List Char) : SResult :=
  match l with
  | '.' :: r =>
    (match r with
     | [] => SResult.incomplete
     | d :: _ =>
       if d.isDigit then
         parseExpPart (lit ++ '.' :: r.takeWhile Char.isDigit)
           (r.dropWhile Char.isDigit)
       else SResult.bad r)
  | _ => parseExpPart lit l

/-- A JSON number: optional minus, integer part (a lone 0, or a nonzero
digit followed by digits), optional fraction, optional exponent.  The
first character of `l` is already known to be a minus sign or a digit. -/
def parseNumber (l : List Char) : SResult :=
  let sign : List Char × List Char :=
    match l with
    | '-' :: r => (['-'], r)
    | _ => ([], l)
  match sign.2 with
  | [] => SResult.incomplete
  | c :: rest =>
    if c = '0' then parseFracPart (sign.1 ++ ['0']) rest
    else if c.isDigit then
      parseFracPart (sign.1 ++ c :: rest.takeWhile Char.isDigit)
        (rest.dropWhile Char.isDigit)
    else SResult.bad (c :: rest)

/-- Result of parsing one JSON value: the value, the remainder and whether
the decoder needs one more byte of input (or end-of-input) before it can
report the value.  Go's scanner emits scanEnd one byte after the value's
last byte; json.Decoder.readValue breaks out early only on
scanEndObject/scanEndArray with an empty parse state, so a top-level
object or array completes within its own bytes (`needsByte = false`),
while a top-level null, boolean, string or number is complete only once
the reader supplies a further byte or end-of-input (`needsByte = true`) —
which matters when the reader ends with an error instead. -/
inductive PResult where
  | ok (v : Json) (rest : List Char) (needsByte : Bool)
  | incomplete
  | bad (rest : List Char)

/-- Result of parsing the items of an array. -/
inductive AResult where
  | ok (elems : List Json) (rest : List Char)
  | incomplete
  | bad (rest : List Char)

/-- Result of parsing the members of an object. -/
inductive OResult where
  | ok (fields : List (List Char × Json)) (rest : List Char)
  | incomplete
  | bad (rest : List Char)

mutual

/-- One JSON value, by first character.  The fuel argument bounds the
nesting depth; `decodeValue` supplies more fuel than any input can use. -/
def parseValue : ℕ → List Char → PResult
  | 0, l => PResult.bad l
  | _ + 1, [] => PResult.incomplete
  | fuel + 1, c :: cs =>
    if c = 'n' then
      match dropLit ['u', 'l', 'l'] cs with
      | Except.ok r => PResult.ok Json.null r true
      | Except.error true => PResult.incomplete
      | Except.error false => PResult.bad (c :: cs)
    else if c = 't' then
      match dropLit ['r', 'u', 'e'] cs with
      | Except.ok r => PResult.ok (Json.bool true) r true
      | Except.error true => PResult.incomplete
      | Except.error false => PResult.bad (c :: cs)
    else if c = 'f' then
      match dropLit ['a', 'l', 's', 'e'] cs with
      | Except.ok r => PResult.ok (Json.bool false) r true
      | Except.error true => PResult.incomplete
      | Except.error false => PResult.bad (c :: cs)
    else if c = '"' then
      match parseStringBody [] cs with
      | SResult.ok content r => PResult.ok (Json.str content) r true
      | SResult.incomplete => PResult.incomplete
      | SResult.bad r => PResult.bad r
    else if c = '[' then
      match parseArrayItems fuel (skipWs cs) true with
      | AResult.ok vs r => PResult.ok (Json.arr vs) r false
      | AResult.incomplete => PResult.incomplete
      | AResult.bad r => PResult.bad r
    else if c = '\x7b' then
      match parseObjectItems fuel (skipWs cs) true with
      | OResult.ok fs r => PResult.ok (Json.obj fs) r false
      | OResult.incomplete => PResult.incomplete
      | OResult.bad r => PResult.bad r
    else if c = '-' || c.isDigit then
      match parseNumber (c :: cs) with
      | SResult.ok lit r => PResult.ok (Json.num lit) r true
      | SResult.incomplete => PResult.incomplete
      | SResult.bad r => PResult.bad r
    else PResult.bad (c :: cs)

/-- The items of an array, after the opening bracket (whitespace already
skipped).  `first` is true when no element has been read yet, so that `]`
may close the array immediately. -/
def parseArrayItems : ℕ → List Char → Bool → AResult
  | 0, l, _ => AResult.bad l
  | _ + 1, [], _ => AResult.incomplete
  | fuel + 1, c :: cs, first =>
    if c = ']' && first then AResult.ok [] cs
    else
      match parseValue fuel (c :: cs) with
      | PResult.ok v rest _ =>
        (match skipWs rest with
         | [] => AResult.incomplete
         | ',' :: r2 =>
           (match parseArrayItems fuel (skipWs r2) false with
            | AResult.ok vs r => AResult.ok (v :: vs) r
            | AResult.incomplete => AResult.incomplete
            | AResult.bad r => AResult.bad r)
         | ']' :: r2 => AResult.ok [v] r2
         | r2 => AResult.bad r2)
      | PResult.incomplete => AResult.incomplete
      | PResult.bad r => AResult.bad r

/-- The members of an object, after the opening brace (whitespace already
skipped). -/
def parseObjectItems : ℕ → List Char → Bool → OResult
  | 0, l, _ => OResult.bad l
  | _ + 1, [], _ => OResult.incomplete
  | fuel + 1, c :: cs, first =>
    if c = '\x7d' && first then OResult.ok [] cs
    else if c = '"' then
      match parseStringBody [] cs with
      | SResult.ok key r1 =>
        (match skipWs r1 with
         | [] => OResult.incomplete
         | ':' :: r2 =>
           (match parseValue fuel (skipWs r2) with
            | PResult.ok v rest _ =>
              (match skipWs rest with
               | [] => OResult.incomplete
               | ',' :: r3 =>
                 (match parseObjectItems fuel (skipWs r3) false with
                  | OResult.ok fs r => OResult.ok ((key, v) :: fs) r
                  | OResult.incomplete => OResult.incomplete
                  | OResult.bad r => OResult.bad r)
               | '\x7d' :: r3 => OResult.ok [(key, v)] r3
               | r3 => OResult.bad r3)
            | PResult.incomplete => OResult.incomplete
            | PResult.bad r => OResult.bad r)
         | r2 => OResult.bad r2)
      | SResult.incomplete => OResult.incomplete
      | SResult.bad r => OResult.bad r
    else OResult.bad (c :: cs)

end

/-- Result of one `dec.Decode` attempt on a character stream: end of
input with nothing but whitespace before it, input ending inside a value,
a syntax error (remainder at the offending position), or a decoded value
with the remainder and the flag saying whether the scanner still needs a
byte (or end-of-input) to report the value — true for every top-level
value except objects and arrays, whose closing bracket completes them. -/
inductive DResult where
  | eof
  | incomplete
  | bad (rest : List Char)
  | ok (v : Json) (rest : List Char) (needsByte : Bool)

/-- Decode one JSON value from the visible stream, as json.Decoder.Decode
does.  Fuel `2*length+8` exceeds any possible nesting depth. -/
def decodeValue (l : List Char) : DResult :=
  match skipWs l with
  | [] => DResult.eof
  | c :: cs =>
    match parseValue (2 * l.length + 8) (c :: cs) with
    | PResult.ok v rest needsByte => DResult.ok v rest needsByte
    | PResult.incomplete => DResult.incomplete
    | PResult.bad r => DResult.bad r

/-- tools.go lines 203-206: the size limit — MaxJSONSize when non-zero,
otherwise one megabyte. -/
def goMaxBytes (t : Tools) : ℕ :=
  if t.MaxJSONSize ≠ 0 then t.MaxJSONSize else 1024 * 1024

/-- tools.go line 239: the message for an oversized body. -/
def sizeErrMsg (maxBytes : ℕ) : String :=
  "body must not be larger than " ++ toString maxBytes ++ " bytes"

/-- tools.go lines 199-255: ReadJSON.  The decoder sees at most
`goMaxBytes t` characters; a longer body makes MaxBytesReader end the
stream with the "http: request body too large" error instead of
end-of-input, which ReadJSON translates to `sizeErrMsg` (line 238) when
the first Decode hits it.  The first Decode hits it in three cases: the
visible prefix is whitespace only, it ends inside the first value, or the
first value needs a further byte to be reported (it is not an object or
array: scanEnd is delayed one byte, and readValue breaks early only on
scanEndObject/scanEndArray) and ends exactly at the cut.  Otherwise the
first value decodes and a second Decode must return end-of-input; any
other outcome — more data in the stream, or the saved too-large error —
yields the multiple-values message (lines 247-252). -/
def ReadJSON (t : Tools) (body : List Char) : Except String Json :=
  match decodeValue (body.take (goMaxBytes t)) with
  | DResult.eof =>
    if body.length > goMaxBytes t then Except.error (sizeErrMsg (goMaxBytes t))
    else Except.error "body must not be empty"
  | DResult.incomplete =>
    if body.length > goMaxBytes t then Except.error (sizeErrMsg (goMaxBytes t))
    else Except.error "body contains badly-formed JSON"
  | DResult.bad r =>
    Except.error ("body contains badly-formed JSON (at character " ++
      toString ((body.take (goMaxBytes t)).length - r.length + 1) ++ ")")
  | DResult.ok v rest needsByte =>
    if needsByte ∧ rest = [] ∧ body.length > goMaxBytes t then
      Except.error (sizeErrMsg (goMaxBytes t))
    else if skipWs rest = [] then
      if body.length > goMaxBytes t then
        Except.error "body must contain only one JSON value"
      else Except.ok v
    else Except.error "body must contain only one JSON value"

/-! ## Receiver (non-)mutation of the remaining operations

Each of the following definitions is the effect of the named method on its
`*Tools` receiver, read off from the method body: none of these methods
contains an assignment to a receiver field, so each leaves the receiver
exactly as it was.  (UploadFiles is the one method that does assign to a
receiver field; its receiver effect is part of `UploadFiles` above.) -/

/-- tools.go lines 32-41: RandomString never assigns to a receiver field. -/
def RandomString_toolsAfter (t : Tools) : Tools := t

/-- tools.go lines 160-169: CreateDirIfNotExist never assigns to a
receiver field. -/
def CreateDirIfNotExist_toolsAfter (t : Tools) : Tools := t

/-- tools.go lines 173-184: Slugify never assigns to a receiver field. -/
def Slugify_toolsAfter (t : Tools) : Tools := t

/-- tools.go lines 187-192: DownloadStaticFile never assigns to a receiver
field. -/
def DownloadStaticFile_toolsAfter (t : Tools) : Tools := t

/-- tools.go lines 199-255: ReadJSON reads MaxJSONSize and
AllowUnknownFields into locals and never assigns to a receiver field. -/
def ReadJSON_toolsAfter (t : Tools) : Tools := t

/-- tools.go lines 258-278: WriteJSON never assigns to a receiver field. -/
def WriteJSON_toolsAfter (t : Tools) : Tools := t

/-- tools.go lines 281-293: ErrorJSON never assigns to a receiver field. -/
def ErrorJSON_toolsAfter (t : Tools) : Tools := t

/-- tools.go lines 297-323: PushJSONToRemote never assigns to a receiver
field. -/
def PushJSONToRemote_toolsAfter (t : Tools) : Tools := t

/-! ## PushJSONToRemote (tools.go lines 297-323) -/

/-- The HTTP response as far as this module observes it: the status code
and whether its body has been closed. -/
structure HttpResponse where
  statusCode : ℕ
  bodyClosed : Bool
deriving DecidableEq

/-- Outcomes of the external steps PushJSONToRemote performs:
whether json.Marshal succeeds, whether http.NewRequest succeeds, and what
`httpClient.Do` returns (`none` is a transport error; a delivered response
arrives with its body open, `bodyClosed = false`). -/
structure PushEnv where
  marshalOk : Bool
  newRequestOk : Bool
  doResult : Option HttpResponse
deriving DecidableEq

/-- tools.go lines 297-323: PushJSONToRemote returns (response, status
code, error).  On any error the response is absent and the status code 0.
On success the function body has registered `defer response.Body.Close()`
(line 319), which runs when the function returns: the response reaches the
caller with `bodyClosed = true`. -/
def PushJSONToRemote (env : PushEnv) :
    Option HttpResponse × ℕ × Option String :=
  if !env.marshalOk then (none, 0, some "marshal error")
  else if !env.newRequestOk then (none, 0, some "new request error")
  else
    match env.doResult with
    | none => (none, 0, some "transport error")
    | some resp =>
      (some { resp with bodyClosed := true }, resp.statusCode, none)

/-! ## Concrete inputs used in the claim checks -/

/-- A JPEG file part on which every external step succeeds. -/
def partJpeg : FilePart := ⟨"a.jpg", "image/jpeg", true, true, true, true, some 10⟩

/-- A PNG file part on which every external step succeeds. -/
def partPng : FilePart := ⟨"b.png", "image/png", true, true, true, true, some 20⟩

/-- A configuration that allows only image/jpeg. -/
def toolsC1 : Tools := ⟨0, ["image/jpeg"], 0, false⟩

/-- A request carrying a permitted JPEG part followed by a rejected PNG
part. -/
def reqC1 : MultipartRequest := ⟨true, true, [partJpeg, partPng]⟩

/-- A fixed random-name oracle (each RandomString(25) result). -/
def genX : ℕ → String := fun _ => "XXXXXXXXXXXXXXXXXXXXXXXXX"

/-- A configuration with a 4-byte JSON size limit. -/
def toolsJ4 : Tools := ⟨0, [], 4, false⟩

/-- A configuration with a 5-byte JSON size limit. -/
def toolsJ5 : Tools := ⟨0, [], 5, false⟩

/-! # Theorems -/

/-- Helper: the regex-automaton replacement of the source equals the
specification's run-collapsing replacement, in both automaton states. -/
theorem replaceUnsafeRuns_eq_collapse (l : List Char) :
    replaceUnsafeRuns false l = collapseRunsSpec l ∧
    replaceUnsafeRuns true l =
      collapseRunsSpec (l.dropWhile fun x => !isSafeChar x) := by
  induction l with
  | nil => exact ⟨by simp [replaceUnsafeRuns, collapseRunsSpec],
      by simp [replaceUnsafeRuns, collapseRunsSpec]⟩
  | cons c cs ih =>
    by_cases hc : isSafeChar c
    · refine ⟨?_, ?_⟩
      · simp [replaceUnsafeRuns, collapseRunsSpec, hc, ih.1]
      · simp [replaceUnsafeRuns, List.dropWhile_cons, collapseRunsSpec, hc,
          ih.1]
    · refine ⟨?_, ?_⟩
      · simp [replaceUnsafeRuns, collapseRunsSpec, hc, ih.2]
      · simp [replaceUnsafeRuns, List.dropWhile_cons, hc, ih.2]

/-- C4: for every n ≥ 0 (and any state of the random source), the string
RandomString returns has length exactly n. -/
theorem c4_randomString_length (σ : ℕ → ℕ) (n : ℕ) :
    (RandomString σ n).length = n := by
  simp [RandomString]

/-- C3, counterexample: the claim says every one of the 64 alphabet
characters can occur at every position.  It cannot: whatever the state of
the random source, the first character of RandomString(1) is never 'a',
because crypto/rand.Prime returns a 64-bit prime, every such prime is odd,
and an odd index mod 64 never points at 'a' (which sits at index 0). -/
theorem c3_counterexample_a_never_occurs :
    ¬ ∃ σ : ℕ → ℕ, (∀ j, rand_Prime_spec (σ j)) ∧
      (RandomString σ 1).getD 0 ' ' = 'a' := by
  rintro ⟨σ, hall, hc⟩
  obtain ⟨hp, h63, -⟩ := hall 0
  have hne2 : σ 0 ≠ 2 := by
    intro h
    rw [h] at h63
    norm_num at h63
  have hodd : σ 0 % 2 = 1 := Nat.odd_iff.mp (hp.odd_of_ne_two hne2)
  have h64 : σ 0 % 64 % 2 = 1 := by
    rw [Nat.mod_mod_of_dvd _ (by norm_num : (2 : ℕ) ∣ 64)]
    exact hodd
  have hlt : σ 0 % 64 < 64 := Nat.mod_lt _ (by norm_num)
  have key : ∀ i : Fin 64, i.1 % 2 = 1 → sourceChars.getD i.1 ' ' ≠ 'a' := by
    decide
  have hne : charFromPrime (σ 0) ≠ 'a' := key ⟨σ 0 % 64, hlt⟩ h64
  apply hne
  simpa [RandomString, charFromPrime] using hc

/-- C3, amended: each character RandomString produces is the alphabet
character at index p mod 64 for a fresh 64-bit prime p; every prime other
than 2 is odd, so the index is always odd and the character always comes
from the 32 characters at odd alphabet positions — the 32 characters at
even positions (among them 'a') never occur. -/
theorem c3_chars_only_from_odd_positions (p : ℕ) (hp : Nat.Prime p)
    (h2 : p ≠ 2) :
    p % 64 % 2 = 1 ∧ charFromPrime p ∈ oddPositionChars := by
  have hodd : p % 2 = 1 := Nat.odd_iff.mp (hp.odd_of_ne_two h2)
  have h64 : p % 64 % 2 = 1 := by
    rw [Nat.mod_mod_of_dvd _ (by norm_num : (2 : ℕ) ∣ 64)]
    exact hodd
  refine ⟨h64, ?_⟩
  have hlt : p % 64 < 64 := Nat.mod_lt _ (by norm_num)
  refine List.mem_map.mpr ⟨p % 64 / 2, List.mem_range.mpr (by omega), ?_⟩
  have h : 2 * (p % 64 / 2) + 1 = p % 64 := by omega
  rw [h]
  rfl

/-- Witness for C3's amended theorem at the concrete prime 3. -/
theorem c3_chars_only_from_odd_positions_witness :
    Nat.Prime 3 ∧ (3 % 64 % 2 = 1 ∧ charFromPrime 3 ∈ oddPositionChars) :=
  ⟨Nat.prime_three,
    c3_chars_only_from_odd_positions 3 Nat.prime_three (by decide)⟩

/-- C5: Slugify behaves exactly as the specification describes — empty
input fails with the empty-input condition; otherwise the input is
lower-cased, runs of characters outside [a-z0-9] collapse to single
hyphens, leading/trailing hyphens are trimmed; an empty outcome fails with
the empty-result condition and a non-empty one is returned — including the
specification's concrete examples. -/
theorem c5_slugify_matches_spec :
    (∀ s, Slugify s = slugifySpec s) ∧
    Slugify "" = Except.error "empty string not permitted" ∧
    Slugify "Now is the Time!" = Except.ok "now-is-the-time" ∧
    Slugify "今こそすべての善良な男性のための時です" =
      Except.error "after removing unsafe characters, slug is zero length" ∧
    Slugify "Hello world, 今こそすべての善良な男性のための時です" =
      Except.ok "hello-world" := by
  refine ⟨?_, rfl, rfl, rfl, rfl⟩
  intro s
  unfold Slugify slugifySpec
  rw [(replaceUnsafeRuns_eq_collapse (s.toList.map goToLower)).1]

/-- C1: the claim (and the spec) say a failing file part makes UploadFiles
return the files successfully stored so far together with the error.  The
code does not: the per-file closure returns nil on failure and that nil is
assigned to the accumulating slice before the outer return, so the
successfully stored files are dropped.  Concretely, with an allow-list of
image/jpeg and a request carrying a permitted JPEG part (stored: its
per-part step returns the one-element list) followed by a PNG part, the
call returns the empty list with the disallowed-type error — not the
one-element list the claim requires.  (UploadOneFile does return just the
error.) -/
theorem c1_uploadFiles_stored_files_lost :
    processPart ⟨1024 * 1024 * 1024, ["image/jpeg"], 0, false⟩ true (genX 0)
        [] partJpeg =
      Except.ok [⟨genX 0 ++ ".jpg", "a.jpg", 10⟩] ∧
    (UploadFiles toolsC1 reqC1 genX (some true)).files = [] ∧
    (UploadFiles toolsC1 reqC1 genX (some true)).err =
      some "the uploaded file type is not permitted" ∧
    (UploadOneFile toolsC1 reqC1 genX (some true)).2 =
      OneFileResult.err "the uploaded file type is not permitted" :=
  ⟨rfl, rfl, rfl, rfl⟩

/-- C2, counterexample: the claim says no operation mutates the receiver,
but UploadFiles assigns MaxFileSize = 1 GiB through the pointer receiver
when the field is zero: starting from a zero MaxFileSize the receiver
differs after the call. -/
theorem c2_counterexample_receiver_mutated :
    (UploadFiles ⟨0, [], 0, false⟩ ⟨true, true, []⟩ genX none).tools.MaxFileSize
        = 1024 * 1024 * 1024 ∧
    (UploadFiles ⟨0, [], 0, false⟩ ⟨true, true, []⟩ genX none).tools ≠
      (⟨0, [], 0, false⟩ : Tools) := by
  exact ⟨rfl, by decide⟩

/-- Helper: the first component of UploadOneFile is the receiver
UploadFiles leaves behind. -/
theorem uploadOneFile_fst (t : Tools) (r : MultipartRequest)
    (gen : ℕ → String) (rn : Option Bool) :
    (UploadOneFile t r gen rn).1 =
      (UploadFiles t r gen (some (rn.getD true))).tools := by
  have h : ∀ out : UploadOutcome,
      (match out.err with
       | some e => (out.tools, OneFileResult.err e)
       | none =>
         match out.files with
         | [] => (out.tools, OneFileResult.crash)
         | f :: _ => (out.tools, OneFileResult.ok f)).1 = out.tools := by
    intro out
    rcases out with ⟨tl, fls, er⟩
    cases er <;> cases fls <;> rfl
  exact h (UploadFiles t r gen (some (rn.getD true)))

/-- C2, amended: no operation mutates the receiver except UploadFiles
(and UploadOneFile through it), which sets MaxFileSize to 1 GiB exactly
when it was zero; AllowedFileTypes, MaxJSONSize and AllowUnknownFields are
never changed, and the receiver effect of every other operation is the
identity (their bodies contain no assignment to a receiver field). -/
theorem c2_only_uploadFiles_mutates_receiver (t : Tools)
    (r : MultipartRequest) (gen : ℕ → String) (rn : Option Bool) :
    (UploadFiles t r gen rn).tools =
      (if t.MaxFileSize = 0 then { t with MaxFileSize := 1024 * 1024 * 1024 }
       else t) ∧
    (UploadFiles t r gen rn).tools.AllowedFileTypes = t.AllowedFileTypes ∧
    (UploadFiles t r gen rn).tools.MaxJSONSize = t.MaxJSONSize ∧
    (UploadFiles t r gen rn).tools.AllowUnknownFields = t.AllowUnknownFields ∧
    (UploadOneFile t r gen rn).1 =
      (UploadFiles t r gen (some (rn.getD true))).tools ∧
    ReadJSON_toolsAfter t = t ∧
    RandomString_toolsAfter t = t ∧
    Slugify_toolsAfter t = t ∧
    CreateDirIfNotExist_toolsAfter t = t ∧
    DownloadStaticFile_toolsAfter t = t ∧
    WriteJSON_toolsAfter t = t ∧
    ErrorJSON_toolsAfter t = t ∧
    PushJSONToRemote_toolsAfter t = t := by
  have htools : (UploadFiles t r gen rn).tools =
      (if t.MaxFileSize = 0 then { t with MaxFileSize := 1024 * 1024 * 1024 }
       else t) := by
    unfold UploadFiles
    dsimp only
    split_ifs <;> rfl
  refine ⟨htools, ?_, ?_, ?_, uploadOneFile_fst t r gen rn,
    rfl, rfl, rfl, rfl, rfl, rfl, rfl, rfl⟩
  all_goals rw [htools]
  all_goals split_ifs <;> rfl

/-- C10: a request whose (successfully parsed) multipart form contains no
file parts makes UploadFiles return the empty list with a nil error, and
UploadOneFile then evaluates element zero of the empty slice: a panic, not
an error return. -/
theorem c10_uploadOneFile_no_parts_panics (t : Tools) (gen : ℕ → String)
    (rn : Option Bool) (r : MultipartRequest) (hparts : r.fileParts = [])
    (hdir : r.dirCreateOk = true) (hparse : r.parseOk = true) :
    (UploadFiles t r gen (some (rn.getD true))).files = [] ∧
    (UploadFiles t r gen (some (rn.getD true))).err = none ∧
    (UploadOneFile t r gen rn).2 = OneFileResult.crash := by
  rcases r with ⟨d, p, parts⟩
  replace hparts : parts = [] := hparts
  replace hdir : d = true := hdir
  replace hparse : p = true := hparse
  subst hparts hdir hparse
  exact ⟨rfl, rfl, rfl⟩

/-- Witness for C10 at a concrete empty request. -/
theorem c10_uploadOneFile_no_parts_panics_witness :
    ((⟨true, true, []⟩ : MultipartRequest).fileParts = [] ∧
      (⟨true, true, []⟩ : MultipartRequest).dirCreateOk = true ∧
      (⟨true, true, []⟩ : MultipartRequest).parseOk = true) ∧
    (UploadOneFile ⟨0, [], 0, false⟩ ⟨true, true, []⟩ genX none).2 =
      OneFileResult.crash :=
  ⟨⟨rfl, rfl, rfl⟩,
    (c10_uploadOneFile_no_parts_panics ⟨0, [], 0, false⟩ genX none
      ⟨true, true, []⟩ rfl rfl rfl).2.2⟩

/-- Helper: a successful ReadJSON call means the first decode produced the
value with a whitespace-only remainder and the body was within the size
limit. -/
theorem readJSON_ok_shape (t : Tools) (body : List Char) (v : Json)
    (h : ReadJSON t body = Except.ok v) :
    ∃ rest needsByte,
      decodeValue (body.take (goMaxBytes t)) = DResult.ok v rest needsByte ∧
      skipWs rest = [] ∧ ¬ body.length > goMaxBytes t := by
  unfold ReadJSON at h
  split at h
  · split_ifs at h
  · split_ifs at h
  · exact Except.noConfusion h
  · rename_i v' rest needsByte heq
    split_ifs at h with h1 h2 h3
    refine ⟨rest, needsByte, ?_, h2, h3⟩
    rw [heq]
    injection h with h
    rw [h]

/-- C6: ReadJSON succeeds only when the body holds exactly one JSON value
— a success means the first decode produced a value whose remainder is
whitespace only (and the stream was not cut by the size limit, so the
second decode hits end-of-input) — and whenever the first value decodes
but data remains after it, ReadJSON fails with the exact message
"body must contain only one JSON value". -/
theorem c6_readJSON_single_value (t : Tools) (body : List Char) :
    (∀ v, ReadJSON t body = Except.ok v →
      ∃ rest needsByte,
        decodeValue (body.take (goMaxBytes t)) = DResult.ok v rest needsByte ∧
        skipWs rest = [] ∧ ¬ body.length > goMaxBytes t) ∧
    (∀ v rest needsByte,
      decodeValue (body.take (goMaxBytes t)) = DResult.ok v rest needsByte →
      skipWs rest ≠ [] →
      ReadJSON t body = Except.error "body must contain only one JSON value")
    := by
  constructor
  · intro v h
    exact readJSON_ok_shape t body v h
  · intro v rest needsByte hd hne
    have hrest : ¬ (needsByte ∧ rest = [] ∧ body.length > goMaxBytes t) := by
      rintro ⟨-, hr, -⟩
      apply hne
      rw [hr]
      rfl
    unfold ReadJSON
    rw [hd]
    exact (if_neg hrest).trans (if_neg hne)

/-- Witness for C6 at the concrete body consisting of two JSON objects. -/
theorem c6_readJSON_single_value_witness :
    decodeValue (("\x7b\x7d \x7b\x7d".toList).take
        (goMaxBytes ⟨0, [], 0, false⟩)) =
      DResult.ok (Json.obj []) [' ', '\x7b', '\x7d'] false ∧
    ReadJSON ⟨0, [], 0, false⟩ ("\x7b\x7d \x7b\x7d".toList) =
      Except.error "body must contain only one JSON value" :=
  ⟨rfl,
    (c6_readJSON_single_value ⟨0, [], 0, false⟩ ("\x7b\x7d \x7b\x7d".toList)).2
      (Json.obj []) [' ', '\x7b', '\x7d'] false rfl (by decide)⟩

/-- C7, counterexample: the claim says a body exceeding the configured
limit fails with the size-limit message naming the limit.  Not always:
with a 4-byte limit and the 5-byte body consisting of an object followed
by spaces, the first JSON value is complete within the visible 4 bytes, so
the failure surfaces at the second decode and carries the multiple-values
message, which does not name the limit. -/
theorem c7_counterexample_size_message_not_used :
    ("\x7b\x7d   ".toList).length > goMaxBytes toolsJ4 ∧
    ReadJSON toolsJ4 ("\x7b\x7d   ".toList) =
      Except.error "body must contain only one JSON value" ∧
    "body must contain only one JSON value" ≠ sizeErrMsg (goMaxBytes toolsJ4)
    := ⟨by decide, rfl, by decide⟩

/-- C7, amended: ReadJSON limits the body to MaxJSONSize bytes when that
field is non-zero and to 1 MiB when it is zero, and a body exceeding the
limit always fails; the failure carries the size-limit message naming the
limit exactly when the first Decode still needed input at the cut — the
visible prefix is whitespace only, ends inside the first value, or its
first value is not an object or array (scanEnd is one byte late for
strings, literals and numbers) and ends exactly at the cut — while a
first value that completes without further input (an object or array
closing within the limit, or any first value followed by at least one
more visible byte) makes the failure surface at the second Decode with
the multiple-values message, which does not name the limit. -/
theorem c7_oversized_body_always_fails (t : Tools) (body : List Char)
    (h : body.length > goMaxBytes t) :
    goMaxBytes t = (if t.MaxJSONSize ≠ 0 then t.MaxJSONSize else 1048576) ∧
    (∃ e, ReadJSON t body = Except.error e) ∧
    (decodeValue (body.take (goMaxBytes t)) = DResult.incomplete →
      ReadJSON t body = Except.error (sizeErrMsg (goMaxBytes t))) ∧
    (decodeValue (body.take (goMaxBytes t)) = DResult.eof →
      ReadJSON t body = Except.error (sizeErrMsg (goMaxBytes t))) ∧
    (∀ v, decodeValue (body.take (goMaxBytes t)) = DResult.ok v [] true →
      ReadJSON t body = Except.error (sizeErrMsg (goMaxBytes t))) ∧
    (∀ v rest needsByte,
      decodeValue (body.take (goMaxBytes t)) = DResult.ok v rest needsByte →
      rest ≠ [] ∨ needsByte = false →
      ReadJSON t body =
        Except.error "body must contain only one JSON value") := by
  refine ⟨by simp only [goMaxBytes], ?_, ?_, ?_, ?_, ?_⟩
  · rcases hro : ReadJSON t body with e | v
    · exact ⟨e, rfl⟩
    · obtain ⟨-, -, -, -, hnot⟩ := readJSON_ok_shape t body v hro
      exact absurd h hnot
  · intro hd
    unfold ReadJSON
    rw [hd]
    exact if_pos h
  · intro hd
    unfold ReadJSON
    rw [hd]
    exact if_pos h
  · intro v hd
    unfold ReadJSON
    rw [hd]
    exact if_pos ⟨rfl, rfl, h⟩
  · intro v rest needsByte hd hor
    have h1 : ¬ (needsByte = true ∧ rest = [] ∧
        body.length > goMaxBytes t) := by
      rintro ⟨hnb, hr2, -⟩
      rcases hor with hr | hf
      · exact hr hr2
      · rw [hf] at hnb
        exact Bool.noConfusion hnb
    unfold ReadJSON
    rw [hd]
    by_cases h2 : skipWs rest = []
    · exact ((if_neg h1).trans (if_pos h2)).trans (if_pos h)
    · exact (if_neg h1).trans (if_neg h2)

/-- Witness for C7's amended theorem: a 6-byte array body against a
4-byte limit is cut inside the first value and fails with the size-limit
message, and a 6-byte body holding a 5-byte string against a 5-byte limit
— first value complete at the cut but needing one more byte — also fails
with the size-limit message. -/
theorem c7_oversized_body_always_fails_witness :
    (("[1,2,3".toList).length > goMaxBytes toolsJ4 ∧
      ReadJSON toolsJ4 ("[1,2,3".toList) =
        Except.error (sizeErrMsg (goMaxBytes toolsJ4))) ∧
    (("\"abc\"X".toList).length > goMaxBytes toolsJ5 ∧
      ReadJSON toolsJ5 ("\"abc\"X".toList) =
        Except.error (sizeErrMsg (goMaxBytes toolsJ5))) :=
  ⟨⟨by decide,
    (c7_oversized_body_always_fails toolsJ4 ("[1,2,3".toList)
      (by decide)).2.2.1 rfl⟩,
   ⟨by decide,
    (c7_oversized_body_always_fails toolsJ5 ("\"abc\"X".toList)
      (by decide)).2.2.2.2.1 (Json.str ['a', 'b', 'c']) rfl⟩⟩

/-- C8: an empty allow-list permits every file part; a non-empty one
permits a part exactly when its sniffed MIME type is a case-insensitive
match for some entry; a readable part whose type is not permitted makes
the per-file step fail with the disallowed-type message, and a permitted
part never produces that message. -/
theorem c8_allowed_types_check (t : Tools) (renameFile : Bool)
    (newName : String) (acc : List UploadedFile) (hdr : FilePart) :
    (t.AllowedFileTypes = [] →
      fileTypeAllowed t.AllowedFileTypes hdr.sniffedType = true) ∧
    (fileTypeAllowed t.AllowedFileTypes hdr.sniffedType = true ↔
      (t.AllowedFileTypes = [] ∨
        ∃ x ∈ t.AllowedFileTypes, goEqualFold hdr.sniffedType x = true)) ∧
    (hdr.openOk = true → hdr.readOk = true →
      fileTypeAllowed t.AllowedFileTypes hdr.sniffedType = false →
      processPart t renameFile newName acc hdr =
        Except.error "the uploaded file type is not permitted") ∧
    (fileTypeAllowed t.AllowedFileTypes hdr.sniffedType = true →
      processPart t renameFile newName acc hdr ≠
        Except.error "the uploaded file type is not permitted") := by
  refine ⟨?_, ?_, ?_, ?_⟩
  · intro h
    simp [fileTypeAllowed, h]
  · unfold fileTypeAllowed
    cases t.AllowedFileTypes with
    | nil => simp
    | cons a as => simp [List.any_eq_true]
  · intro ho hr hf
    simp [processPart, ho, hr, hf]
  · intro hf
    unfold processPart
    cases ho : hdr.openOk
    · simp
    · cases hr : hdr.readOk
      · simp
      · rw [hf]
        cases hs : hdr.seekOk
        · simp
        · cases hc : hdr.createOk
          · simp
          · cases hcp : hdr.copyResult <;> simp

/-- Witness for C8: a PNG part against a jpeg-only allow-list is rejected
with the disallowed-type message. -/
theorem c8_allowed_types_check_witness :
    (partPng.openOk = true ∧ partPng.readOk = true ∧
      fileTypeAllowed (toolsC1.AllowedFileTypes) partPng.sniffedType = false) ∧
    processPart toolsC1 true (genX 0) [] partPng =
      Except.error "the uploaded file type is not permitted" :=
  ⟨⟨rfl, rfl, by decide⟩,
    (c8_allowed_types_check toolsC1 true (genX 0) [] partPng).2.2.1
      rfl rfl (by decide)⟩

/-- C9, counterexample: the claim says PushJSONToRemote returns the
response with its body still open.  It does not: the deferred
`response.Body.Close()` runs before the function returns, so the response
the caller receives has its body already closed. -/
theorem c9_counterexample_body_closed :
    (PushJSONToRemote ⟨true, true, some ⟨200, false⟩⟩).1 = some ⟨200, true⟩ ∧
    (⟨200, true⟩ : HttpResponse).bodyClosed = true := ⟨rfl, rfl⟩

/-- C9, amended: whenever PushJSONToRemote returns a response, that
response is the one the transport delivered except that its body has
already been closed by the function's own deferred Close; the returned
status code is the response's and the returned error is nil. -/
theorem c9_push_closes_body (env : PushEnv) (r : HttpResponse)
    (h : (PushJSONToRemote env).1 = some r) :
    r.bodyClosed = true ∧
    ∃ r0, env.doResult = some r0 ∧ r.statusCode = r0.statusCode ∧
      (PushJSONToRemote env).2.1 = r0.statusCode ∧
      (PushJSONToRemote env).2.2 = none := by
  rcases env with ⟨m, nr, dr⟩
  cases m
  · exact Option.noConfusion h
  · cases nr
    · exact Option.noConfusion h
    · cases dr with
      | none => exact Option.noConfusion h
      | some resp =>
        injection h with h
        rw [← h]
        exact ⟨rfl, resp, rfl, rfl, rfl, rfl⟩

/-- Witness for C9's amended theorem at a concrete delivered response. -/
theorem c9_push_closes_body_witness :
    (PushJSONToRemote ⟨true, true, some ⟨204, false⟩⟩).1 = some ⟨204, true⟩ ∧
    ((⟨204, true⟩ : HttpResponse).bodyClosed = true ∧
      ∃ r0, (⟨true, true, some ⟨204, false⟩⟩ : PushEnv).doResult = some r0 ∧
        (⟨204, true⟩ : HttpResponse).statusCode = r0.statusCode ∧
        (PushJSONToRemote ⟨true, true, some ⟨204, false⟩⟩).2.1 = r0.statusCode ∧
        (PushJSONToRemote ⟨true, true, some ⟨204, false⟩⟩).2.2 = none) :=
  ⟨rfl, c9_push_closes_body ⟨true, true, some ⟨204, false⟩⟩ ⟨204, true⟩ rfl⟩

end Toolkit
